import Mathlib

/-!
Shallow embedding of `crawler.py` (secure SEO crawler: SSRF guard, strict
robots, size cap, rich extraction, stats) and proofs about the behaviour of
its operations.

External effects are supplied by an explicit environment record `Env`:
DNS resolution (`socket.getaddrinfo`, used by `_is_private_ip`), registrable
domains (`tldextract.extract`, used by `_etld1`), HTTP requests
(`session.get`, indexed by the retry-attempt number so distinct attempts may
observe distinct network behaviour), byte decoding
(`b"".join(chunks).decode(errors="ignore")`), the parsed robots.txt
predicate (`robots.can_fetch`, `none` models a raised exception) and HTML
parsing (BeautifulSoup; `parse` yields the stripped-text word/paragraph
counts and the `a[href]` attributes of the document).

URL strings are modelled by a structured `Url` record carrying the
`urlparse` components; `urljoin`, `urldefrag` and `.hostname or ""` act on
it, with the relative-path merge of `urljoin` abstracted (a relative href
carries its already-merged path).  A bytes object is modelled by its
length together with its content.

The four asyncio workers of `crawl_site` run on a single-threaded
cooperative event loop; the orchestrator is modelled as a sequential
fuel-indexed loop over a `CrawlState`, one admissible serialisation.  The
state carries ghost trace fields (`popped`, `fetched`, `enqueued`) that
record the history of the run and change no computed value.
-/

namespace Crawler

/-- A parsed URL: the `urlparse` components used by the crawler
(`hostname or ""` is the `host` field). -/
structure Url where
  scheme : String
  host : String
  path : String
  query : Option String := none
  fragment : Option String := none
deriving DecidableEq

/-- An href attribute as discovered in a page: empty, an absolute URL, or a
relative reference.  For a relative reference we record the RFC-merged
path/query/fragment that `urljoin` would produce, abstracting the merge. -/
inductive Href where
  | emptyRef : Href
  | abs : Url → Href
  | rel : String → Option String → Option String → Href
deriving DecidableEq

/-- Model of `urllib.parse.urljoin(base, href)` on the structured form: an absolute
href is returned unchanged, a relative one inherits scheme and host. -/
def urljoin (base : Url) : Href → Url
  | .emptyRef => base
  | .abs u => u
  | .rel p q f => { scheme := base.scheme, host := base.host, path := p, query := q, fragment := f }

/-- Model of `urllib.parse.urldefrag`: strip the fragment (the kept component). -/
def urldefrag (u : Url) : Url := { u with fragment := none }

/-- Python truthiness of the `href` argument (`if not href`). -/
def hrefIsEmpty : Href → Bool
  | .emptyRef => true
  | _ => false

/-- Classification flags of one resolved address, as computed by
`ipaddress.ip_address(ip)` in `_is_private_ip`. -/
structure IpInfo where
  is_private : Bool
  is_loopback : Bool
  is_link_local : Bool
  is_reserved : Bool
  is_multicast : Bool
deriving DecidableEq

/-- A bytes object: its observable length (`len(chunk)`) and its content. -/
structure Bytes where
  size : Nat
  content : String
deriving DecidableEq

/-- One completed HTTP response: final (post-redirect) URL `str(r.url)`,
status, `Content-Type` header, and the body as a stream of byte chunks. -/
structure Response where
  finalUrl : Url
  status : Nat
  contentType : String
  chunks : List Bytes
deriving DecidableEq

/-- Result of one `session.get`: a completed response, or a raised
transport exception carrying its class name. -/
inductive GetResult where
  | exc : String → GetResult
  | ok : Response → GetResult
deriving DecidableEq

/-- What BeautifulSoup parsing of one HTML document yields, restricted to
the fields the crawler consumes: content of a `meta[name=robots]` tag if
present, title/description/h1/viewport strings, ld+json presence, image
`src`/`alt` pairs, the `a[href]` attributes in document order, and the
word/paragraph counts of the nav-stripped visible text (`_strip_nav` and
the `\w+` / blank-line tokenisation are abstracted into these counts). -/
structure ParsedPage where
  robotsMeta : Option String := none
  title : String := ""
  metaDescription : String := ""
  h1 : String := ""
  viewport : String := ""
  hasLdjson : Bool := false
  images : List (String × String) := []
  hrefs : List Href := []
  words : Nat := 0
  paras : Nat := 0

/-- The external world of one crawl run. -/
structure Env where
  /-- Model of `socket.getaddrinfo(host, None)`: `none` models a raised exception,
  `some infos` the classified resolved addresses. -/
  resolve : String → Option (List IpInfo)
  /-- Model of `tldextract.extract(host)`: the `(domain, suffix)` pair. -/
  domsuf : String → String × String
  /-- Model of `robots.can_fetch(UA, url)`; `none` models a raised exception. -/
  canFetch : Url → Option Bool
  /-- Model of `session.get(url, ...)` at a given attempt index. -/
  get : Url → Nat → GetResult
  /-- Decoding `b"".join(chunks).decode(errors="ignore")` of a kept chunk list. -/
  decode : List Bytes → String
  /-- Parsing via `BeautifulSoup(html, "html.parser")` plus the pure text analysis. -/
  parse : String → ParsedPage

/-- Model of `_is_private_ip(host)`: resolve and report whether any resolved address
is private/loopback/link-local/reserved/multicast.  A resolution exception
yields `False` (the `except Exception: return False` branch). -/
def is_private_ip (env : Env) (host : String) : Bool :=
  match env.resolve host with
  | none => false
  | some infos =>
      infos.any fun i =>
        i.is_private || i.is_loopback || i.is_link_local || i.is_reserved || i.is_multicast

/-- Model of `_etld1(host)`: empty string for an empty host, else
`f"{t.domain}.{t.suffix}"` from `tldextract`. -/
def etld1 (env : Env) (host : String) : String :=
  if host = "" then "" else (env.domsuf host).1 ++ "." ++ (env.domsuf host).2

/-- Model of `normalize_url(base, href)`: resolve against the base, strip the
fragment, allow only http/https, require equal registrable domains
(eTLD+1), reject hosts the guard marks private. -/
def normalize_url (env : Env) (base : Url) (href : Href) : Option Url :=
  if hrefIsEmpty href = true then none else
  let url := urldefrag (urljoin base href)
  if ¬ (url.scheme = "http" ∨ url.scheme = "https") then none else
  let base_host := base.host
  let host := url.host
  if etld1 env base_host ≠ etld1 env host then none else
  if is_private_ip env host = true then none else
  some url

/-- Does the character list start with the given needle? -/
def startsWithList : List Char → List Char → Bool
  | _, [] => true
  | [], _ :: _ => false
  | a :: as, b :: bs => a == b && startsWithList as bs

/-- Substring containment on character lists. -/
def containsList : List Char → List Char → Bool
  | [], t => t.isEmpty
  | a :: as, t => startsWithList (a :: as) t || containsList as t

/-- The Python substring test `t in s`. -/
def containsSub (s t : String) : Bool := containsList s.data t.data

/-- Python `str.lower()`: lowercase character by character. -/
def strLower (s : String) : String := String.mk (s.data.map Char.toLower)

/-- The cap `MAX_BYTES = 4 * 1024 * 1024`. -/
def MAX_BYTES : Nat := 4 * 1024 * 1024

/-- The chunk-reading loop of `fetch_text`: accumulate `total`, `break` as
soon as the running total exceeds `MAX_BYTES`, append otherwise.  Returns
exactly the chunks that were appended before the break. -/
def keptChunks : Nat → List Bytes → List Bytes
  | _, [] => []
  | total, c :: rest =>
      if MAX_BYTES < total + c.size then []
      else c :: keptChunks (total + c.size) rest

/-- The check `"text/html" in ct or "application/xhtml+xml" in ct` on the
lowercased `Content-Type`. -/
def isHtmlCt (ct : String) : Bool :=
  containsSub (strLower ct) "text/html" || containsSub (strLower ct) "application/xhtml+xml"

/-- Diagnostic part of a `fetch_text` return (the headers dict as far as
the crawler reads it back: `Final-URL`, `__status`, `__is_html`, `Reason`,
`__exc`). -/
inductive Diag where
  | policy : Url → Diag
  | ok : Url → Nat → Bool → Diag
  | exc : String → Diag
  | maxRetry : Diag
deriving DecidableEq

/-- The `(status, html_or_None, headers)` triple returned by `fetch_text`. -/
structure FetchRes where
  status : Nat
  html : Option String
  diag : Diag
deriving DecidableEq

/-- The `html` value computed inside one attempt of `fetch_text`: read the
size-capped body only for a 200 HTML response; `None` if no chunk was
buffered, else the decoded concatenation of the buffered chunks. -/
def attemptHtml (env : Env) (r : Response) : Option String :=
  if r.status = 200 ∧ isHtmlCt r.contentType = true then
    let chunks := keptChunks 0 r.chunks
    if chunks.isEmpty then none else some (env.decode chunks)
  else none

/-- The post-response policy re-validation of `fetch_text`: the final URL
left the original registrable domain, or its host resolves privately. -/
def policyViol (env : Env) (url : Url) (r : Response) : Bool :=
  decide (etld1 env url.host ≠ etld1 env r.finalUrl.host) || is_private_ip env r.finalUrl.host

/-- Reason string the worker later reads out of a `fetch_text` headers
dict: `Reason` for a policy denial, `__exc` for an exception or retry
exhaustion, nothing on success. -/
def diagReason : Diag → Option String
  | .policy _ => some "host_changed_outside_etld1_or_private"
  | .ok _ _ _ => none
  | .exc e => some e
  | .maxRetry => some "MaxRetryExceeded"

/-- Python truthiness of the html value (`if html:` / `not html`): falsy
for `None` and for the empty string. -/
def pyFalsyStr : Option String → Bool
  | none => true
  | some h => h == ""

/-- The `for attempt in range(3)` body of `fetch_text`.  The
`try ... except` encloses the whole loop, so a raised transport exception
returns `(0, None, {__exc})` immediately; a policy violation returns
`(451, None, ...)` immediately; a truthy html returns it; otherwise the
next attempt runs, and after the last attempt the result is
`(0, None, {__exc: "MaxRetryExceeded"})`. -/
def attemptLoop (env : Env) (url : Url) : Nat → Nat → FetchRes
  | _, 0 => ⟨0, none, .maxRetry⟩
  | attempt, n+1 =>
    match env.get url attempt with
    | .exc e => ⟨0, none, .exc e⟩
    | .ok r =>
      if policyViol env url r = true then ⟨451, none, .policy r.finalUrl⟩
      else
        match attemptHtml env r with
        | some h =>
            if h = "" then attemptLoop env url (attempt+1) n
            else ⟨r.status, some h, .ok r.finalUrl r.status (isHtmlCt r.contentType)⟩
        | none => attemptLoop env url (attempt+1) n

/-- Model of `fetch_text(session, url)`: the three-attempt loop from attempt 0. -/
def fetch_text (env : Env) (url : Url) : FetchRes := attemptLoop env url 0 3

/-- Model of `allowed(robots, url)`: `can_fetch`, defaulting to `True` when the
parser raises. -/
def allowed (env : Env) (url : Url) : Bool := (env.canFetch url).getD true

/-- One value of the `results` dict.  Structure fields mirror the literal
dict keys; a key absent from the Python dict is the default of the field
(`skipped := false` mirrors `v.get("skipped")` being falsy, `reason := none`
records that no `reason` key was stored, `word_count := 0` mirrors
`v.get("word_count", 0)`). -/
structure RecordVal where
  status : Nat
  url : Url
  skipped : Bool := false
  reason : Option String := none
  title : String := ""
  meta_description : String := ""
  h1 : String := ""
  viewport : String := ""
  has_ldjson : Bool := false
  images : List (String × String) := []
  word_count : Nat := 0
  para_count : Nat := 0
  links : List Url := []
deriving DecidableEq

/-- Result of `extract_rich`: the `{"skip_by_meta": True}` marker or the
full rich dict. -/
inductive ExtractResult where
  | skipByMeta : ExtractResult
  | page : RecordVal → ExtractResult
deriving DecidableEq

/-- The rich dict built by `extract_rich` when no meta-robots short-circuit
fires: status 200, the request URL, the parsed presentation fields, and the
same-scope normalized outbound links deduplicated into a set. -/
def richOf (env : Env) (url : Url) (pp : ParsedPage) : RecordVal :=
  { status := 200, url := url, title := pp.title,
    meta_description := pp.metaDescription, h1 := pp.h1,
    viewport := pp.viewport, has_ldjson := pp.hasLdjson,
    images := pp.images,
    word_count := pp.words, para_count := pp.paras,
    links := (pp.hrefs.filterMap (normalize_url env url)).dedup }

/-- Model of `extract_rich(url, html)`: short-circuit to the skip marker when the
lowercased content of a `meta[name=robots]` tag contains `noindex` or
`nofollow`; otherwise build the rich record. -/
def extract_rich (env : Env) (url : Url) (html : String) : ExtractResult :=
  let pp := env.parse html
  match pp.robotsMeta with
  | some content =>
      if containsSub (strLower content) "noindex" || containsSub (strLower content) "nofollow"
      then .skipByMeta
      else .page (richOf env url pp)
  | none => .page (richOf env url pp)

/-- One entry of `stats["fail_samples"]` (the fields read back from the
`fetch_text` headers are summarised by the reason string). -/
structure FailSample where
  url : Url
  status : Nat
  reason : Option String
deriving DecidableEq

/-- The `stats` counter dict of `crawl_site`. -/
structure Stats where
  crawled : Nat := 0
  final_kept : Nat := 0
  filtered_thin : Nat := 0
  skipped_noindex : Nat := 0
  robots_denied : Nat := 0
  fetch_error : Nat := 0
  status_200_html : Nat := 0
  fail_samples : List FailSample := []
deriving DecidableEq

/-- The mutable state of one crawl run: `visited` (a set, modelled as a
duplicate-free list in insertion order), the FIFO `queue`, the `results`
dict (association list in insertion order), and `stats`; plus ghost trace
fields recording every URL ever popped from the queue, every URL ever
passed to `fetch_text`, and every URL ever placed on the queue. -/
structure CrawlState where
  visited : List Url
  queue : List Url
  results : List (Url × RecordVal)
  stats : Stats
  popped : List Url := []
  fetched : List Url := []
  enqueued : List Url := []
deriving DecidableEq

/-- Dict assignment `results[url] = v`: replace an existing binding, else append. -/
def dinsert (k : Url) (v : RecordVal) : List (Url × RecordVal) → List (Url × RecordVal)
  | [] => [(k, v)]
  | (k2, v2) :: rest => if k2 = k then (k, v) :: rest else (k2, v2) :: dinsert k v rest

/-- The dict literal `{"status": 451, "url": url}` of the two denial
branches. -/
def deniedRecord (url : Url) : RecordVal := { status := 451, url := url }

/-- The link-admission loop: for each discovered link, if it is not in
`visited` and `len(results) + len(queue) < max_pages`, add it to `visited`
and append it to the queue. -/
def admitLinks (mp : Nat) : List Url → CrawlState → CrawlState
  | [], s => s
  | l :: ls, s =>
      if l ∉ s.visited ∧ s.results.length + s.queue.length < mp then
        admitLinks mp ls
          { s with visited := s.visited ++ [l], queue := s.queue ++ [l],
                   enqueued := s.enqueued ++ [l] }
      else admitLinks mp ls s

/-- The append `stats["fail_samples"].append(...)` guarded by `len(...) < 5`. -/
def addFailSample (st : Stats) (url : Url) (fr : FetchRes) : Stats :=
  if st.fail_samples.length < 5 then
    { st with fail_samples := st.fail_samples ++ [⟨url, fr.status, diagReason fr.diag⟩] }
  else st

/-- The body of `worker` for one popped URL (the state `s` already has the
URL removed from the queue and appended to the ghost `popped` trace):
robots denial, guard denial, or fetch followed by error recording,
meta-skip recording, or rich recording plus link admission. -/
def crawlStep (env : Env) (mp : Nat) (url : Url) (s : CrawlState) : CrawlState :=
  if allowed env url = false then
    { s with results := dinsert url (deniedRecord url) s.results,
             stats := { s.stats with robots_denied := s.stats.robots_denied + 1 } }
  else if is_private_ip env url.host = true then
    { s with results := dinsert url (deniedRecord url) s.results,
             stats := { s.stats with robots_denied := s.stats.robots_denied + 1 } }
  else
    let fr := fetch_text env url
    let s1 : CrawlState :=
      { s with fetched := s.fetched ++ [url],
               stats := { s.stats with crawled := s.stats.crawled + 1 } }
    if fr.status ≠ 200 ∨ pyFalsyStr fr.html = true then
      { s1 with results := dinsert url { status := fr.status, url := url } s1.results,
                stats := addFailSample
                  { s1.stats with fetch_error := s1.stats.fetch_error + 1 } url fr }
    else
      let s2 : CrawlState :=
        { s1 with stats := { s1.stats with status_200_html := s1.stats.status_200_html + 1 } }
      match extract_rich env url (fr.html.getD "") with
      | .skipByMeta =>
          { s2 with results := dinsert url { status := 200, url := url, skipped := true } s2.results,
                    stats := { s2.stats with skipped_noindex := s2.stats.skipped_noindex + 1 } }
      | .page rec =>
          admitLinks mp rec.links { s2 with results := dinsert url rec s2.results }

/-- The `while queue and len(results) < max_pages` worker loop, fuel
indexed (each iteration of the source loop inserts one results entry, so
any fuel of at least `max_pages` — or than the reachable frontier — is
enough; the theorems hold for every fuel). -/
def crawlLoop (env : Env) (mp : Nat) : Nat → CrawlState → CrawlState
  | 0, s => s
  | fuel+1, s =>
    match s.queue with
    | [] => s
    | url :: rest =>
      if mp ≤ s.results.length then s
      else
        crawlLoop env mp fuel
          (crawlStep env mp url { s with queue := rest, popped := s.popped ++ [url] })

/-- Initial state `visited, queue = set([root_url]), [root_url]` plus empty results and
zeroed stats. -/
def initState (root : Url) : CrawlState :=
  { visited := [root], queue := [root], results := [], stats := {}, enqueued := [root] }

/-- The orchestrator state after the worker pool has drained. -/
def crawlResults (env : Env) (root : Url) (mp fuel : Nat) : CrawlState :=
  crawlLoop env mp fuel (initState root)

/-- The final filter loop of `crawl_site`: returns the kept page map plus
the increments to `final_kept` and `filtered_thin`. -/
def finalFilter (minWords : Nat) (includeThin : Bool) :
    List (Url × RecordVal) → List (Url × RecordVal) × Nat × Nat
  | [] => ([], 0, 0)
  | (u, v) :: rest =>
      let (fin, kept, thin) := finalFilter minWords includeThin rest
      if v.status = 200 ∧ v.skipped = false then
        if includeThin = true ∨ minWords ≤ v.word_count then ((u, v) :: fin, kept + 1, thin)
        else (fin, kept, thin + 1)
      else (fin, kept, thin)

/-- Model of `crawl_site(root_url, max_pages, min_words, include_thin)`: run the
worker loop from the seeded state, then apply the thin-content filter and
return the kept pages with the completed stats. -/
def crawl_site (env : Env) (root : Url) (maxPages minWords : Nat) (includeThin : Bool)
    (fuel : Nat) : List (Url × RecordVal) × Stats :=
  let s := crawlResults env root maxPages fuel
  let r := finalFilter minWords includeThin s.results
  (r.1, { s.stats with final_kept := s.stats.final_kept + r.2.1,
                       filtered_thin := s.stats.filtered_thin + r.2.2 })

/-- The visited/enqueued/queue bookkeeping invariant: the visited set is
exactly the set of ever-enqueued URLs, every enqueued URL was either popped
already or is still on the frontier, and no URL is ever enqueued twice. -/
def QInv (s : CrawlState) : Prop :=
  s.visited = s.enqueued ∧ s.enqueued = s.popped ++ s.queue ∧ s.enqueued.Nodup

/-- Invariant of every reachable orchestrator state: the visited set is
exactly the list of ever-enqueued URLs; the enqueued URLs split into the
popped ones followed by the frontier; no URL is enqueued twice; the results
dict holds one entry per popped URL, keyed in pop order; and the fetched
URLs form a subsequence of the popped ones. -/
def Inv (s : CrawlState) : Prop :=
  s.visited = s.enqueued ∧ s.enqueued = s.popped ++ s.queue ∧ s.enqueued.Nodup ∧
  s.results.map Prod.fst = s.popped ∧ s.fetched.Sublist s.popped

/-- What every record stored in the results dict satisfies: it carries the
URL it is keyed under, it carries no reason code, a kept-shaped record
(status 200, not skipped) comes from a fetch that returned 200, a
robots-disallowed URL is recorded with status 451, a guard-unsafe URL is
recorded with status 451, and a URL whose fetch did not return 200 is
recorded with the fetch status itself (0 for a transport exception, 451
for a policy denial). -/
def RInv (env : Env) (s : CrawlState) : Prop :=
  ∀ uv ∈ s.results,
    uv.2.url = uv.1 ∧ uv.2.reason = none ∧
    (uv.2.status = 200 → uv.2.skipped = false → (fetch_text env uv.1).status = 200) ∧
    (allowed env uv.1 = false → uv.2.status = 451) ∧
    (allowed env uv.1 = true → is_private_ip env uv.1.host = true → uv.2.status = 451) ∧
    (allowed env uv.1 = true → is_private_ip env uv.1.host = false →
      (fetch_text env uv.1).status ≠ 200 → uv.2.status = (fetch_text env uv.1).status)

/-- The crawled counter always equals the HTML-200 counter plus the
fetch-error counter: the two branches after a fetch partition it. -/
def StatsSum (s : CrawlState) : Prop :=
  s.stats.crawled = s.stats.status_200_html + s.stats.fetch_error

/-- A results entry the final filter keeps: fetched-and-parsed (status 200,
not meta-skipped) and either thin pages are included or the word count
meets the minimum. -/
def keepP (mw : Nat) (it : Bool) (uv : Url × RecordVal) : Bool :=
  decide (uv.2.status = 200 ∧ uv.2.skipped = false ∧ (it = true ∨ mw ≤ uv.2.word_count))

/-- A results entry counted as filtered-thin: fetched-and-parsed but below
the word minimum with thin pages excluded. -/
def thinP (mw : Nat) (it : Bool) (uv : Url × RecordVal) : Bool :=
  decide (uv.2.status = 200 ∧ uv.2.skipped = false ∧ ¬(it = true ∨ mw ≤ uv.2.word_count))

/-! ### Concrete hosts, responses and environments

A small concrete world used to evaluate the operations on explicit
inputs: a public site `www.example.com` (registrable domain
`example.com`), a page that redirects to the loopback address
`127.0.0.1`, an unresolvable subdomain, a well-formed HTML root page
whose parse yields two same-site links, a non-HTML JSON response, and a
two-chunk body whose total size exceeds `MAX_BYTES`. -/

def pubIp : IpInfo := ⟨false, false, false, false, false⟩

def loopbackIp : IpInfo := ⟨false, true, false, false, false⟩

def uRootW : Url := { scheme := "http", host := "www.example.com", path := "/" }

def uPageA : Url := { scheme := "http", host := "www.example.com", path := "/a" }

def uPageB : Url := { scheme := "http", host := "www.example.com", path := "/b" }

def uPrivW : Url := { scheme := "http", host := "127.0.0.1", path := "/admin" }

def uUnres : Url := { scheme := "http", host := "unresolved.example.com", path := "/x" }

def rootRespW : Response :=
  { finalUrl := uRootW, status := 200, contentType := "text/html; charset=utf-8",
    chunks := [⟨100, "ROOTPAGE"⟩] }

def privRedirResp : Response :=
  { finalUrl := uPrivW, status := 200, contentType := "text/html", chunks := [⟨10, "X"⟩] }

def jsonRespW : Response :=
  { finalUrl := uRootW, status := 200, contentType := "application/json",
    chunks := [⟨10, "J"⟩] }

def bigResp : Response :=
  { finalUrl := uRootW, status := 200, contentType := "text/html",
    chunks := [⟨3000000, "PART1"⟩, ⟨3000000, "PART2"⟩] }

def rootParsedW : ParsedPage := { hrefs := [Href.abs uPageA, Href.abs uPageB], words := 500 }

def baseEnv : Env :=
  { resolve := fun h => if h = "127.0.0.1" then some [loopbackIp]
      else if h = "unresolved.example.com" then none else some [pubIp],
    domsuf := fun h => if h = "127.0.0.1" then ("127.0.0.1", "") else ("example", "com"),
    canFetch := fun _ => some true,
    get := fun _ _ => GetResult.exc "ClientConnectorError",
    decode := fun l => String.join (l.map Bytes.content),
    parse := fun html => if html = "ROOTPAGE" then rootParsedW else {} }

/-- World where fetching `/a` redirects to the loopback host. -/
def envC1 : Env :=
  { baseEnv with
    get := fun u _ => if u = uRootW then GetResult.ok rootRespW
      else if u = uPageA then GetResult.ok privRedirResp
      else GetResult.exc "ClientConnectorError" }

/-- World where every response body exceeds the byte cap. -/
def envC2 : Env := { baseEnv with get := fun _ _ => GetResult.ok bigResp }

/-- World where attempt 1 raises a transport exception and attempt 2
would return a good HTML response. -/
def envC4a : Env :=
  { baseEnv with
    get := fun _ a => if a = 0 then GetResult.exc "OSError" else GetResult.ok rootRespW }

/-- World where attempt 1 returns a successful non-HTML (JSON) response
and attempt 2 returns a good HTML response. -/
def envC4b : Env :=
  { baseEnv with
    get := fun _ a => if a = 0 then GetResult.ok jsonRespW else GetResult.ok rootRespW }

/-- World whose robots.txt disallows everything. -/
def envC8 : Env := { baseEnv with canFetch := fun _ => some false }

/-- World where the root page is fetchable and links to `/a` (disallowed
by robots) and `/b` (in scope, fetchable). -/
def envC10 : Env :=
  { baseEnv with
    get := fun u _ => if u = uRootW then GetResult.ok rootRespW
      else GetResult.exc "ClientConnectorError",
    canFetch := fun u => if u = uPageA then some false else some true }

/-! ### Shape of `fetch_text` results -/

/-- Every value the attempt loop can return: retry exhaustion and transport
exceptions carry status 0 and no body, policy denials carry 451 and no
body, and a success carries status 200 with a nonempty body. -/
lemma attemptLoop_shape (env : Env) (url : Url) :
    ∀ n attempt,
      (attemptLoop env url attempt n = ⟨0, none, Diag.maxRetry⟩)
      ∨ (∃ e, attemptLoop env url attempt n = ⟨0, none, Diag.exc e⟩)
      ∨ (∃ f, attemptLoop env url attempt n = ⟨451, none, Diag.policy f⟩)
      ∨ (∃ h d, attemptLoop env url attempt n = ⟨200, some h, d⟩ ∧ h ≠ "") := by
  intro n
  induction n with
  | zero => intro attempt; left; rfl
  | succ n ih =>
    intro attempt
    cases hg : env.get url attempt with
    | exc e =>
      right; left; exact ⟨e, by simp [attemptLoop, hg]⟩
    | ok r =>
      by_cases hp : policyViol env url r = true
      · right; right; left; exact ⟨r.finalUrl, by simp [attemptLoop, hg, hp]⟩
      · cases hh : attemptHtml env r with
        | none => simpa [attemptLoop, hg, hp, hh] using ih (attempt + 1)
        | some s =>
          by_cases hs : s = ""
          · simpa [attemptLoop, hg, hp, hh, hs] using ih (attempt + 1)
          · right; right; right
            have h200 : r.status = 200 := by
              by_contra hne
              simp [attemptHtml, hne] at hh
            refine ⟨s, Diag.ok r.finalUrl r.status (isHtmlCt r.contentType), ?_, hs⟩
            simp [attemptLoop, hg, hp, hh, hs, h200]

/-- A 200 result of `fetch_text` always carries a truthy (nonempty) body. -/
lemma fetch_text_200_html (env : Env) (url : Url)
    (h : (fetch_text env url).status = 200) :
    pyFalsyStr (fetch_text env url).html = false := by
  rcases attemptLoop_shape env url 3 0 with h0 | ⟨e, h0⟩ | ⟨f, h0⟩ | ⟨s, d, h0, hs⟩ <;>
    rw [fetch_text] at h ⊢ <;> rw [h0] at h ⊢
  · simp at h
  · simp at h
  · simp at h
  · simp [pyFalsyStr, hs]

/-! ### `results` dict insertion -/

lemma mem_dinsert (k : Url) (v : RecordVal) :
    ∀ l x, x ∈ dinsert k v l → x = (k, v) ∨ x ∈ l := by
  intro l
  induction l with
  | nil => intro x hx; simpa [dinsert] using hx
  | cons p rest ih =>
    intro x hx
    obtain ⟨k2, v2⟩ := p
    by_cases hk : k2 = k
    · simp only [dinsert, if_pos hk] at hx
      rcases List.mem_cons.mp hx with h | h
      · exact Or.inl h
      · exact Or.inr (List.mem_cons_of_mem _ h)
    · simp only [dinsert, if_neg hk] at hx
      rcases List.mem_cons.mp hx with h | h
      · exact Or.inr (h ▸ List.mem_cons_self _ _)
      · rcases ih x h with h2 | h2
        · exact Or.inl h2
        · exact Or.inr (List.mem_cons_of_mem _ h2)

/-- Inserting a fresh key appends the binding. -/
lemma dinsert_not_mem (k : Url) (v : RecordVal) :
    ∀ l, k ∉ l.map Prod.fst → dinsert k v l = l ++ [(k, v)] := by
  intro l
  induction l with
  | nil => intro _; rfl
  | cons p rest ih =>
    intro hk
    obtain ⟨k2, v2⟩ := p
    simp only [List.map_cons, List.mem_cons] at hk
    push_neg at hk
    have hne : k2 ≠ k := fun he => hk.1 he.symm
    simp [dinsert, hne, ih hk.2]

/-! ### The link-admission loop leaves everything but the frontier alone -/

lemma admitLinks_results (mp : Nat) :
    ∀ ls s, (admitLinks mp ls s).results = s.results := by
  intro ls
  induction ls with
  | nil => intro s; rfl
  | cons l ls ih => intro s; rw [admitLinks]; split <;> rw [ih]

lemma admitLinks_stats (mp : Nat) :
    ∀ ls s, (admitLinks mp ls s).stats = s.stats := by
  intro ls
  induction ls with
  | nil => intro s; rfl
  | cons l ls ih => intro s; rw [admitLinks]; split <;> rw [ih]

lemma admitLinks_popped (mp : Nat) :
    ∀ ls s, (admitLinks mp ls s).popped = s.popped := by
  intro ls
  induction ls with
  | nil => intro s; rfl
  | cons l ls ih => intro s; rw [admitLinks]; split <;> rw [ih]

lemma admitLinks_fetched (mp : Nat) :
    ∀ ls s, (admitLinks mp ls s).fetched = s.fetched := by
  intro ls
  induction ls with
  | nil => intro s; rfl
  | cons l ls ih => intro s; rw [admitLinks]; split <;> rw [ih]

lemma admitLinks_qinv (mp : Nat) :
    ∀ ls s, QInv s → QInv (admitLinks mp ls s) := by
  intro ls
  induction ls with
  | nil => intro s h; exact h
  | cons l ls ih =>
    intro s h
    obtain ⟨h1, h2, h3⟩ := h
    rw [admitLinks]
    split
    · next hc =>
      apply ih
      refine ⟨by simp [h1], by simp [h2, List.append_assoc], ?_⟩
      have hl : l ∉ s.enqueued := h1 ▸ hc.1
      simp [List.nodup_append, h3, hl]
    · exact ih _ ⟨h1, h2, h3⟩

/-! ### The orchestrator bookkeeping invariant -/

lemma initState_inv (root : Url) : Inv (initState root) := by
  refine ⟨rfl, rfl, ?_, rfl, ?_⟩ <;> simp [initState]

lemma crawlStep_inv (env : Env) (mp : Nat) (url : Url) (t : CrawlState)
    (h1 : t.visited = t.enqueued)
    (h2 : t.enqueued = t.popped ++ t.queue)
    (h3 : t.enqueued.Nodup)
    (h4 : t.results.map Prod.fst ++ [url] = t.popped)
    (h5 : t.fetched.Sublist (t.results.map Prod.fst)) :
    Inv (crawlStep env mp url t) := by
  have hpop : t.popped.Nodup := (h2 ▸ h3).of_append_left
  have hku : url ∉ t.results.map Prod.fst := by
    have hn := h4 ▸ hpop
    exact fun hmem => (List.nodup_append.mp hn).2.2 hmem (by simp)
  have hkeys : ∀ v, (dinsert url v t.results).map Prod.fst = t.popped := by
    intro v
    rw [dinsert_not_mem url v t.results hku, List.map_append]
    simpa using h4
  have hfet : (t.fetched ++ [url]).Sublist t.popped := by
    rw [← h4]; exact h5.append (List.Sublist.refl _)
  have hfet2 : t.fetched.Sublist t.popped := by
    rw [← h4]; exact h5.trans (List.sublist_append_left _ _)
  cases hA : allowed env url with
  | false =>
    simp only [crawlStep, hA]
    exact ⟨h1, h2, h3, hkeys _, hfet2⟩
  | true =>
    cases hP : is_private_ip env url.host with
    | true =>
      simp only [crawlStep, hA, hP]
      simp only [Bool.true_eq_false, if_false, if_true]
      exact ⟨h1, h2, h3, hkeys _, hfet2⟩
    | false =>
      simp only [crawlStep, hA, hP]
      simp only [Bool.true_eq_false, Bool.false_eq_true, if_false]
      by_cases hE : (fetch_text env url).status ≠ 200 ∨ pyFalsyStr (fetch_text env url).html = true
      · simp only [if_pos hE]
        exact ⟨h1, h2, h3, hkeys _, hfet⟩
      · simp only [if_neg hE]
        cases hX : extract_rich env url ((fetch_text env url).html.getD "") with
        | skipByMeta =>
          simp only [hX]
          exact ⟨h1, h2, h3, hkeys _, hfet⟩
        | page rec =>
          simp only [hX]
          have hq := admitLinks_qinv mp rec.links
            { t with fetched := t.fetched ++ [url],
                     stats := { t.stats with
                       crawled := t.stats.crawled + 1,
                       status_200_html := t.stats.status_200_html + 1 },
                     results := dinsert url rec t.results } ⟨h1, h2, h3⟩
          obtain ⟨q1, q2, q3⟩ := hq
          exact ⟨q1, q2, q3, by rw [admitLinks_results, admitLinks_popped]; exact hkeys _,
                 by rw [admitLinks_fetched, admitLinks_popped]; exact hfet⟩

lemma crawlLoop_inv (env : Env) (mp : Nat) :
    ∀ fuel s, Inv s → Inv (crawlLoop env mp fuel s) := by
  intro fuel
  induction fuel with
  | zero => intro s h; exact h
  | succ fuel ih =>
    intro s h
    obtain ⟨h1, h2, h3, h4, h5⟩ := h
    rw [crawlLoop]
    cases hq : s.queue with
    | nil => exact ⟨h1, h2, h3, h4, h5⟩
    | cons url rest =>
      by_cases hm : mp ≤ s.results.length
      · simp only [if_pos hm]
        exact ⟨h1, h2, h3, h4, h5⟩
      · simp only [if_neg hm]
        apply ih
        apply crawlStep_inv
        · exact h1
        · show s.enqueued = (s.popped ++ [url]) ++ rest
          rw [h2, hq]; simp
        · exact h3
        · show s.results.map Prod.fst ++ [url] = s.popped ++ [url]
          rw [h4]
        · show s.fetched.Sublist (s.results.map Prod.fst)
          rw [h4]; exact h5

lemma crawlResults_inv (env : Env) (root : Url) (mp fuel : Nat) :
    Inv (crawlResults env root mp fuel) :=
  crawlLoop_inv env mp fuel (initState root) (initState_inv root)

/-! ### Contents of results records -/

/-- The skip marker fires only on a meta-robots hit; otherwise
`extract_rich` yields the rich record, whose fixed fields are known. -/
lemma extract_rich_page (env : Env) (url : Url) (html : String) (rec : RecordVal)
    (h : extract_rich env url html = .page rec) :
    rec.status = 200 ∧ rec.url = url ∧ rec.skipped = false ∧ rec.reason = none := by
  simp only [extract_rich] at h
  cases hm : (env.parse html).robotsMeta with
  | none =>
    simp only [hm] at h
    cases h
    simp [richOf]
  | some c =>
    simp only [hm] at h
    split at h
    · exact ExtractResult.noConfusion h
    · cases h
      simp [richOf]

lemma crawlStep_rinv (env : Env) (mp : Nat) (url : Url) (t : CrawlState)
    (h : RInv env t) : RInv env (crawlStep env mp url t) := by
  cases hA : allowed env url with
  | false =>
    simp only [crawlStep, hA]
    intro uv hm
    rcases mem_dinsert url (deniedRecord url) t.results uv hm with heq | hmem
    · subst heq
      refine ⟨rfl, rfl, ?_, fun _ => rfl, fun _ _ => rfl, ?_⟩
      · intro h200 _; exact absurd (show (451 : Nat) = 200 from h200) (by omega)
      · intro hA2
        exact absurd (show allowed env url = true from hA2) (by simp [hA])
    · exact h uv hmem
  | true =>
    cases hP : is_private_ip env url.host with
    | true =>
      simp only [crawlStep, hA, hP]
      simp only [Bool.true_eq_false, if_false, if_true]
      intro uv hm
      rcases mem_dinsert url (deniedRecord url) t.results uv hm with heq | hmem
      · subst heq
        refine ⟨rfl, rfl, ?_, ?_, fun _ _ => rfl, ?_⟩
        · intro h200 _; exact absurd (show (451 : Nat) = 200 from h200) (by omega)
        · intro hF
          exact absurd (show allowed env url = false from hF) (by simp [hA])
        · intro _ hPr
          exact absurd (show is_private_ip env url.host = false from hPr) (by simp [hP])
      · exact h uv hmem
    | false =>
      simp only [crawlStep, hA, hP]
      simp only [Bool.true_eq_false, Bool.false_eq_true, if_false]
      by_cases hE : (fetch_text env url).status ≠ 200 ∨ pyFalsyStr (fetch_text env url).html = true
      · simp only [if_pos hE]
        intro uv hm
        rcases mem_dinsert url { status := (fetch_text env url).status, url := url }
            t.results uv hm with heq | hmem
        · subst heq
          refine ⟨rfl, rfl, ?_, ?_, ?_, fun _ _ _ => rfl⟩
          · intro h200 _
            exact h200
          · intro hF
            exact absurd (show allowed env url = false from hF) (by simp [hA])
          · intro _ hPr
            exact absurd (show is_private_ip env url.host = true from hPr) (by simp [hP])
        · exact h uv hmem
      · simp only [if_neg hE]
        have h200 : (fetch_text env url).status = 200 := not_not.mp (not_or.mp hE).1
        cases hX : extract_rich env url ((fetch_text env url).html.getD "") with
        | skipByMeta =>
          simp only [hX]
          intro uv hm
          rcases mem_dinsert url { status := 200, url := url, skipped := true }
              t.results uv hm with heq | hmem
          · subst heq
            refine ⟨rfl, rfl, ?_, ?_, ?_, ?_⟩
            · intro _ hsk; exact absurd (show true = false from hsk) (by simp)
            · intro hF
              exact absurd (show allowed env url = false from hF) (by simp [hA])
            · intro _ hPr
              exact absurd (show is_private_ip env url.host = true from hPr) (by simp [hP])
            · intro _ _ hne; exact absurd h200 hne
          · exact h uv hmem
        | page rec =>
          simp only [hX]
          obtain ⟨hr1, hr2, hr3, hr4⟩ := extract_rich_page env url _ rec hX
          intro uv hm
          rw [admitLinks_results] at hm
          rcases mem_dinsert url rec t.results uv hm with heq | hmem
          · subst heq
            refine ⟨hr2, hr4, fun _ _ => h200, ?_, ?_, ?_⟩
            · intro hF
              exact absurd (show allowed env url = false from hF) (by simp [hA])
            · intro _ hPr
              exact absurd (show is_private_ip env url.host = true from hPr) (by simp [hP])
            · intro _ _ hne; exact absurd h200 hne
          · exact h uv hmem

lemma crawlLoop_rinv (env : Env) (mp : Nat) :
    ∀ fuel s, RInv env s → RInv env (crawlLoop env mp fuel s) := by
  intro fuel
  induction fuel with
  | zero => intro s h; exact h
  | succ fuel ih =>
    intro s h
    rw [crawlLoop]
    cases hq : s.queue with
    | nil => exact h
    | cons url rest =>
      by_cases hm : mp ≤ s.results.length
      · simp only [if_pos hm]; exact h
      · simp only [if_neg hm]
        exact ih _ (crawlStep_rinv env mp url _ h)

lemma crawlResults_rinv (env : Env) (root : Url) (mp fuel : Nat) :
    RInv env (crawlResults env root mp fuel) :=
  crawlLoop_rinv env mp fuel (initState root) (by intro uv hm; cases hm)

/-! ### Stats bookkeeping -/

@[simp] lemma addFailSample_crawled (st : Stats) (url : Url) (fr : FetchRes) :
    (addFailSample st url fr).crawled = st.crawled := by
  unfold addFailSample; split <;> rfl

@[simp] lemma addFailSample_status_200_html (st : Stats) (url : Url) (fr : FetchRes) :
    (addFailSample st url fr).status_200_html = st.status_200_html := by
  unfold addFailSample; split <;> rfl

@[simp] lemma addFailSample_fetch_error (st : Stats) (url : Url) (fr : FetchRes) :
    (addFailSample st url fr).fetch_error = st.fetch_error := by
  unfold addFailSample; split <;> rfl

@[simp] lemma addFailSample_final_kept (st : Stats) (url : Url) (fr : FetchRes) :
    (addFailSample st url fr).final_kept = st.final_kept := by
  unfold addFailSample; split <;> rfl

@[simp] lemma addFailSample_filtered_thin (st : Stats) (url : Url) (fr : FetchRes) :
    (addFailSample st url fr).filtered_thin = st.filtered_thin := by
  unfold addFailSample; split <;> rfl

lemma crawlStep_stats_sum (env : Env) (mp : Nat) (url : Url) (t : CrawlState)
    (h : StatsSum t) : StatsSum (crawlStep env mp url t) := by
  unfold StatsSum at h ⊢
  cases hA : allowed env url with
  | false =>
    simp only [crawlStep, hA]
    exact h
  | true =>
    cases hP : is_private_ip env url.host with
    | true =>
      simp only [crawlStep, hA, hP]
      exact h
    | false =>
      simp only [crawlStep, hA, hP]
      simp only [Bool.true_eq_false, Bool.false_eq_true, if_false]
      by_cases hE : (fetch_text env url).status ≠ 200 ∨ pyFalsyStr (fetch_text env url).html = true
      · simp only [if_pos hE, addFailSample_crawled, addFailSample_status_200_html,
          addFailSample_fetch_error]
        omega
      · simp only [if_neg hE]
        cases hX : extract_rich env url ((fetch_text env url).html.getD "") with
        | skipByMeta => simp only [hX]; omega
        | page rec => simp only [hX, admitLinks_stats]; omega

lemma crawlLoop_stats_sum (env : Env) (mp : Nat) :
    ∀ fuel s, StatsSum s → StatsSum (crawlLoop env mp fuel s) := by
  intro fuel
  induction fuel with
  | zero => intro s h; exact h
  | succ fuel ih =>
    intro s h
    rw [crawlLoop]
    cases hq : s.queue with
    | nil => exact h
    | cons url rest =>
      by_cases hm : mp ≤ s.results.length
      · simp only [if_pos hm]; exact h
      · simp only [if_neg hm]
        exact ih _ (crawlStep_stats_sum env mp url _ h)

lemma crawlStep_final_kept (env : Env) (mp : Nat) (url : Url) (t : CrawlState) :
    (crawlStep env mp url t).stats.final_kept = t.stats.final_kept := by
  cases hA : allowed env url with
  | false =>
    simp only [crawlStep, hA]
    rfl
  | true =>
    cases hP : is_private_ip env url.host with
    | true =>
      simp only [crawlStep, hA, hP]
      rfl
    | false =>
      simp only [crawlStep, hA, hP]
      simp only [Bool.true_eq_false, Bool.false_eq_true, if_false]
      by_cases hE : (fetch_text env url).status ≠ 200 ∨ pyFalsyStr (fetch_text env url).html = true
      · simp only [if_pos hE, addFailSample_final_kept]
      · simp only [if_neg hE]
        cases hX : extract_rich env url ((fetch_text env url).html.getD "") with
        | skipByMeta => simp only [hX]
        | page rec => simp only [hX, admitLinks_stats]
          

lemma crawlStep_filtered_thin (env : Env) (mp : Nat) (url : Url) (t : CrawlState) :
    (crawlStep env mp url t).stats.filtered_thin = t.stats.filtered_thin := by
  cases hA : allowed env url with
  | false =>
    simp only [crawlStep, hA]
    rfl
  | true =>
    cases hP : is_private_ip env url.host with
    | true =>
      simp only [crawlStep, hA, hP]
      rfl
    | false =>
      simp only [crawlStep, hA, hP]
      simp only [Bool.true_eq_false, Bool.false_eq_true, if_false]
      by_cases hE : (fetch_text env url).status ≠ 200 ∨ pyFalsyStr (fetch_text env url).html = true
      · simp only [if_pos hE, addFailSample_filtered_thin]
      · simp only [if_neg hE]
        cases hX : extract_rich env url ((fetch_text env url).html.getD "") with
        | skipByMeta => simp only [hX]
        | page rec => simp only [hX, admitLinks_stats]

lemma crawlLoop_final_kept (env : Env) (mp : Nat) :
    ∀ fuel s, (crawlLoop env mp fuel s).stats.final_kept = s.stats.final_kept := by
  intro fuel
  induction fuel with
  | zero => intro s; rfl
  | succ fuel ih =>
    intro s
    rw [crawlLoop]
    cases hq : s.queue with
    | nil => rfl
    | cons url rest =>
      by_cases hm : mp ≤ s.results.length
      · simp only [if_pos hm]
      · simp only [if_neg hm]
        rw [ih, crawlStep_final_kept]

lemma crawlLoop_filtered_thin (env : Env) (mp : Nat) :
    ∀ fuel s, (crawlLoop env mp fuel s).stats.filtered_thin = s.stats.filtered_thin := by
  intro fuel
  induction fuel with
  | zero => intro s; rfl
  | succ fuel ih =>
    intro s
    rw [crawlLoop]
    cases hq : s.queue with
    | nil => rfl
    | cons url rest =>
      by_cases hm : mp ≤ s.results.length
      · simp only [if_pos hm]
      · simp only [if_neg hm]
        rw [ih, crawlStep_filtered_thin]

/-! ### Closed form of the final thin-content filter -/

lemma finalFilter_eq (mw : Nat) (it : Bool) :
    ∀ l, finalFilter mw it l =
      (l.filter (keepP mw it), l.countP (keepP mw it), l.countP (thinP mw it)) := by
  intro l
  induction l with
  | nil => rfl
  | cons uv rest ih =>
    obtain ⟨u, v⟩ := uv
    rw [finalFilter, ih]
    by_cases h2 : v.status = 200 ∧ v.skipped = false
    · by_cases h3 : it = true ∨ mw ≤ v.word_count
      · simp [keepP, thinP, List.filter_cons, List.countP_cons, h2.1, h2.2, h3]
      · simp [keepP, thinP, List.filter_cons, List.countP_cons, h2.1, h2.2, h3]
    · have h2a : ¬(v.status = 200 ∧ v.skipped = false ∧ (it = true ∨ mw ≤ v.word_count)) :=
        fun hc => h2 ⟨hc.1, hc.2.1⟩
      have h2b : ¬(v.status = 200 ∧ v.skipped = false ∧ ¬(it = true ∨ mw ≤ v.word_count)) :=
        fun hc => h2 ⟨hc.1, hc.2.1⟩
      simp only [List.filter_cons, List.countP_cons, keepP, thinP,
        decide_eq_true_eq, if_neg h2a, if_neg h2b]
      split
      · next hcond => exact absurd hcond h2
      · rfl

lemma crawl_site_pages (env : Env) (root : Url) (mp mw : Nat) (it : Bool) (fuel : Nat) :
    (crawl_site env root mp mw it fuel).1 =
      (crawlResults env root mp fuel).results.filter (keepP mw it) := by
  simp only [crawl_site, finalFilter_eq]

lemma crawl_site_kept_thin (env : Env) (root : Url) (mp mw : Nat) (it : Bool) (fuel : Nat) :
    (crawl_site env root mp mw it fuel).2.final_kept =
      (crawlResults env root mp fuel).results.countP (keepP mw it) ∧
    (crawl_site env root mp mw it fuel).2.filtered_thin =
      (crawlResults env root mp fuel).results.countP (thinP mw it) := by
  simp only [crawl_site, finalFilter_eq]
  unfold crawlResults
  rw [crawlLoop_final_kept, crawlLoop_filtered_thin]
  simp [initState]

/-! ### Monotonicity of the visited/enqueued lists -/

lemma admitLinks_enqueued_ext (mp : Nat) :
    ∀ ls s, ∃ t2, (admitLinks mp ls s).enqueued = s.enqueued ++ t2 := by
  intro ls
  induction ls with
  | nil => intro s; exact ⟨[], by simp [admitLinks]⟩
  | cons l ls ih =>
    intro s
    rw [admitLinks]
    split
    · obtain ⟨t2, ht⟩ := ih
        { s with visited := s.visited ++ [l], queue := s.queue ++ [l],
                 enqueued := s.enqueued ++ [l] }
      exact ⟨[l] ++ t2, by rw [ht]; simp⟩
    · exact ih s

lemma crawlStep_enqueued_ext (env : Env) (mp : Nat) (url : Url) (t : CrawlState) :
    ∃ t2, (crawlStep env mp url t).enqueued = t.enqueued ++ t2 := by
  cases hA : allowed env url with
  | false => exact ⟨[], by simp [crawlStep, hA]⟩
  | true =>
    cases hP : is_private_ip env url.host with
    | true => exact ⟨[], by simp [crawlStep, hA, hP]⟩
    | false =>
      by_cases hE : (fetch_text env url).status ≠ 200 ∨ pyFalsyStr (fetch_text env url).html = true
      · exact ⟨[], by simp [crawlStep, hA, hP, hE]⟩
      · cases hX : extract_rich env url ((fetch_text env url).html.getD "") with
        | skipByMeta => exact ⟨[], by simp [crawlStep, hA, hP, hE, hX]⟩
        | page rec =>
          obtain ⟨t2, ht⟩ := admitLinks_enqueued_ext mp rec.links
            { t with results := dinsert url rec t.results,
                     stats := { t.stats with crawled := t.stats.crawled + 1, status_200_html := t.stats.status_200_html + 1 },
                     fetched := t.fetched ++ [url] }
          refine ⟨t2, ?_⟩
          simp only [crawlStep, hA, hP]
          simp only [Bool.true_eq_false, Bool.false_eq_true, if_false, if_neg hE, hX]
          exact ht

lemma crawlLoop_enqueued_ext (env : Env) (mp : Nat) :
    ∀ fuel s, ∃ t2, (crawlLoop env mp fuel s).enqueued = s.enqueued ++ t2 := by
  intro fuel
  induction fuel with
  | zero => intro s; exact ⟨[], by simp [crawlLoop]⟩
  | succ fuel ih =>
    intro s
    rw [crawlLoop]
    cases hq : s.queue with
    | nil => exact ⟨[], by simp⟩
    | cons url rest =>
      by_cases hm : mp ≤ s.results.length
      · simp only [if_pos hm]
        exact ⟨[], by simp⟩
      · simp only [if_neg hm]
        obtain ⟨t2a, h2a⟩ := crawlStep_enqueued_ext env mp url
          { s with queue := rest, popped := s.popped ++ [url] }
        obtain ⟨t2b, h2b⟩ := ih
          (crawlStep env mp url { s with queue := rest, popped := s.popped ++ [url] })
        refine ⟨t2a ++ t2b, ?_⟩
        rw [h2b, h2a]
        simp

/-! ### Claim theorems -/

/-- C5: at the end of every run of `crawl_site`, the stats counters are
internally consistent: `crawled` equals `status_200_html` plus
`fetch_error`, with no double-counting and no gaps (the portion of
`robots_denied` included in the crawled total is zero, because
robots-denied URLs are recorded before any fetch is attempted and never
increment `crawled`). -/
theorem c5_stats_consistent (env : Env) (root : Url) (mp mw : Nat) (it : Bool) (fuel : Nat) :
    (crawl_site env root mp mw it fuel).2.crawled =
      (crawl_site env root mp mw it fuel).2.status_200_html +
        (crawl_site env root mp mw it fuel).2.fetch_error :=
  crawlLoop_stats_sum env mp fuel (initState root) rfl

/-- C6: throughout every run of `crawl_site`, the visited set contains
exactly the URLs ever enqueued (the seed, which stays at its head, plus
every admitted link); enqueued URLs split into the already-popped ones
followed by the current frontier; no URL is ever enqueued twice; the
visited list only ever grows (the seeded initial list is a prefix of the
final one); and every URL is fetched at most once per run. -/
theorem c6_visited_enqueued_once (env : Env) (root : Url) (mp fuel : Nat) :
    (crawlResults env root mp fuel).visited = (crawlResults env root mp fuel).enqueued ∧
    (crawlResults env root mp fuel).enqueued =
      (crawlResults env root mp fuel).popped ++ (crawlResults env root mp fuel).queue ∧
    (crawlResults env root mp fuel).enqueued.Nodup ∧
    [root] <+: (crawlResults env root mp fuel).visited ∧
    (crawlResults env root mp fuel).fetched.Sublist (crawlResults env root mp fuel).popped ∧
    (crawlResults env root mp fuel).fetched.Nodup := by
  obtain ⟨h1, h2, h3, _, h5⟩ := crawlResults_inv env root mp fuel
  have hpop : (crawlResults env root mp fuel).popped.Nodup := (h2 ▸ h3).of_append_left
  refine ⟨h1, h2, h3, ?_, h5, h5.nodup hpop⟩
  obtain ⟨t2, ht⟩ := crawlLoop_enqueued_ext env mp fuel (initState root)
  exact ⟨t2, by rw [h1]; exact ht.symm⟩

/-- C7: the final thin-content filter of `crawl_site` keeps a successfully
fetched-and-parsed results entry (status 200, not meta-skipped) exactly
when thin pages are included or its word count meets the minimum;
`final_kept` counts exactly the kept entries and `filtered_thin` counts
exactly the fetched-and-parsed entries excluded for being thin, so a thin
page with `include_thin = false` is excluded from the returned pages,
counted once in `filtered_thin`, never in `final_kept`, and separately
from denied/failed entries (which have status ≠ 200 and fall under
neither counter). -/
theorem c7_thin_filter (env : Env) (root : Url) (mp mw : Nat) (it : Bool) (fuel : Nat) :
    (∀ u v, (u, v) ∈ (crawl_site env root mp mw it fuel).1 ↔
      ((u, v) ∈ (crawlResults env root mp fuel).results ∧
        v.status = 200 ∧ v.skipped = false ∧ (it = true ∨ mw ≤ v.word_count))) ∧
    (crawl_site env root mp mw it fuel).2.final_kept =
      (crawlResults env root mp fuel).results.countP (keepP mw it) ∧
    (crawl_site env root mp mw it fuel).2.filtered_thin =
      (crawlResults env root mp fuel).results.countP (thinP mw it) ∧
    (crawl_site env root mp mw it fuel).2.final_kept =
      (crawl_site env root mp mw it fuel).1.length := by
  obtain ⟨hk, ht⟩ := crawl_site_kept_thin env root mp mw it fuel
  refine ⟨?_, hk, ht, ?_⟩
  · intro u v
    rw [crawl_site_pages, List.mem_filter]
    simp [keepP]
  · rw [hk, crawl_site_pages]
    exact List.countP_eq_length_filter _ _

/-! ### Single attempts of the fetch loop -/

lemma attemptLoop_exc (env : Env) (url : Url) (attempt n : Nat) (e : String)
    (hg : env.get url attempt = GetResult.exc e) :
    attemptLoop env url attempt (n + 1) = ⟨0, none, Diag.exc e⟩ := by
  simp [attemptLoop, hg]

lemma attemptLoop_policy (env : Env) (url : Url) (attempt n : Nat) (r : Response)
    (hg : env.get url attempt = GetResult.ok r)
    (hb : policyViol env url r = true) :
    attemptLoop env url attempt (n + 1) = ⟨451, none, Diag.policy r.finalUrl⟩ := by
  simp [attemptLoop, hg, hb]

lemma attemptLoop_success (env : Env) (url : Url) (attempt n : Nat) (r : Response) (h : String)
    (hg : env.get url attempt = GetResult.ok r)
    (hp : policyViol env url r = false)
    (hh : attemptHtml env r = some h)
    (hne : h ≠ "") :
    attemptLoop env url attempt (n + 1) =
      ⟨r.status, some h, Diag.ok r.finalUrl r.status (isHtmlCt r.contentType)⟩ := by
  simp [attemptLoop, hg, hp, hh, hne]

lemma attemptLoop_retry (env : Env) (url : Url) (attempt n : Nat) (r : Response)
    (hg : env.get url attempt = GetResult.ok r)
    (hp : policyViol env url r = false)
    (hh : pyFalsyStr (attemptHtml env r) = true) :
    attemptLoop env url attempt (n + 1) = attemptLoop env url (attempt + 1) n := by
  cases hx : attemptHtml env r with
  | none => simp [attemptLoop, hg, hp, hx]
  | some s =>
    rw [hx] at hh
    simp only [pyFalsyStr, beq_iff_eq] at hh
    simp [attemptLoop, hg, hp, hx, hh]

@[simp] lemma urldefrag_idem (u : Url) : urldefrag (urldefrag u) = urldefrag u := rfl

@[simp] lemma urljoin_abs (base u : Url) : urljoin base (Href.abs u) = u := rfl

@[simp] lemma hrefIsEmpty_abs (u : Url) : hrefIsEmpty (Href.abs u) = false := rfl

/-- The kept chunk list is a prefix of the chunk stream of the response. -/
lemma keptChunks_prefix : ∀ (chunks : List Bytes) (total : Nat),
    keptChunks total chunks <+: chunks := by
  intro chunks
  induction chunks with
  | nil => intro total; exact List.prefix_refl _
  | cons c rest ih =>
    intro total
    rw [keptChunks]
    split
    · exact ⟨c :: rest, rfl⟩
    · obtain ⟨t2, ht⟩ := ih (total + c.size)
      exact ⟨t2, by rw [List.cons_append, ht]⟩

/-- C9: `normalize_url` is idempotent — whenever it returns a URL,
re-normalizing that URL against the same base returns the same URL
unchanged: the returned URL is absolute with an allowed scheme, already
fragment-free, within the same registrable domain, and its host already
passed the guard, so every check passes again and the URL round-trips. -/
theorem c9_normalize_idempotent (env : Env) (base : Url) (href : Href) (u : Url)
    (h : normalize_url env base href = some u) :
    normalize_url env base (Href.abs u) = some u := by
  simp only [normalize_url] at h
  by_cases h0 : hrefIsEmpty href = true
  · rw [if_pos h0] at h; cases h
  · rw [if_neg h0] at h
    by_cases h1 : ¬((urldefrag (urljoin base href)).scheme = "http" ∨
        (urldefrag (urljoin base href)).scheme = "https")
    · rw [if_pos h1] at h; cases h
    · rw [if_neg h1] at h
      by_cases h2 : etld1 env base.host ≠ etld1 env (urldefrag (urljoin base href)).host
      · rw [if_pos h2] at h; cases h
      · rw [if_neg h2] at h
        by_cases h3 : is_private_ip env (urldefrag (urljoin base href)).host = true
        · rw [if_pos h3] at h; cases h
        · rw [if_neg h3] at h
          injection h with hu
          subst hu
          simp only [normalize_url, urljoin_abs, hrefIsEmpty_abs, urldefrag_idem]
          rw [if_neg (by simp), if_neg h1, if_neg h2, if_neg h3]

/-- C9 witness: normalizing a relative link with a fragment against the
example site yields `/a`, and re-normalizing `/a` returns it unchanged. -/
theorem c9_normalize_idempotent_w :
    normalize_url baseEnv uRootW (Href.abs uPageA) = some uPageA :=
  c9_normalize_idempotent baseEnv uRootW (Href.rel "/a" none (some "frag")) uPageA (by decide)

/-- C10: every terminal outcome — kept, meta-skipped, denied, failed —
inserts exactly one entry into the single results map, whose keys are
exactly the popped URLs in pop order (so denied and failed URLs consume
max_pages budget like kept ones); concretely, with `max_pages = 2`, a
root whose page links to `/a` (robots-denied) and `/b` (in scope), the
run ends with 2 results but only 1 kept page, while the in-scope link
`/b` was discoverable yet never even admitted to the frontier. -/
theorem c10_budget_consumed :
    (∀ env root mp fuel,
      (crawlResults env root mp fuel).results.map Prod.fst =
        (crawlResults env root mp fuel).popped ∧
      (crawlResults env root mp fuel).results.length =
        (crawlResults env root mp fuel).popped.length) ∧
    (crawl_site envC10 uRootW 2 0 true 10).1.length = 1 ∧
    (crawlResults envC10 uRootW 2 10).results.length = 2 ∧
    (crawlResults envC10 uRootW 2 10).stats.robots_denied = 1 ∧
    normalize_url envC10 uRootW (Href.abs uPageB) = some uPageB ∧
    uPageB ∉ (crawlResults envC10 uRootW 2 10).visited := by
  refine ⟨?_, ?_, ?_, ?_, ?_, ?_⟩
  · intro env root mp fuel
    obtain ⟨_, _, _, h4, _⟩ := crawlResults_inv env root mp fuel
    exact ⟨h4, by rw [← h4, List.length_map]⟩
  · decide
  · decide
  · decide
  · decide
  · decide

/-- C1: whenever the response to a fetch has a final post-redirect URL
whose registrable domain differs from that of the original URL, or whose host
the guard classifies as private/loopback/link-local/reserved/multicast,
`fetch_text` returns status 451 with a null body regardless of the real
HTTP status, and `crawl_site` never includes that URL among the kept
pages — a redirect chain from a public host to a private IP is denied,
never kept. -/
theorem c1_redirect_policy_denied (env : Env) (root url : Url) (mp mw : Nat) (it : Bool)
    (fuel : Nat) (r : Response)
    (hg : env.get url 0 = GetResult.ok r)
    (hv : etld1 env url.host ≠ etld1 env r.finalUrl.host ∨
      is_private_ip env r.finalUrl.host = true) :
    fetch_text env url = ⟨451, none, Diag.policy r.finalUrl⟩ ∧
    url ∉ (crawl_site env root mp mw it fuel).1.map Prod.fst := by
  have hb : policyViol env url r = true := by
    rcases hv with hx | hx
    · simp [policyViol, hx]
    · simp [policyViol, hx]
  have hf : fetch_text env url = ⟨451, none, Diag.policy r.finalUrl⟩ :=
    attemptLoop_policy env url 0 2 r hg hb
  refine ⟨hf, ?_⟩
  intro hmem
  rw [crawl_site_pages] at hmem
  obtain ⟨p, hp, he⟩ := List.mem_map.mp hmem
  obtain ⟨u2, v⟩ := p
  have hu2 : u2 = url := he
  subst hu2
  rw [List.mem_filter] at hp
  obtain ⟨hres, hkeep⟩ := hp
  have hk := crawlResults_rinv env root mp fuel _ hres
  simp only [keepP, decide_eq_true_eq] at hkeep
  have h200 := hk.2.2.1 hkeep.1 hkeep.2.1
  rw [hf] at h200
  exact absurd (show (451 : Nat) = 200 from h200) (by omega)

/-- C1 witness: in the concrete world, `/a` redirects to
`http://127.0.0.1/admin`; its fetch is denied with 451 and the crawl from
the root never keeps `/a`. -/
theorem c1_redirect_policy_denied_w :
    fetch_text envC1 uPageA = ⟨451, none, Diag.policy uPrivW⟩ ∧
    uPageA ∉ (crawl_site envC1 uRootW 10 0 true 10).1.map Prod.fst :=
  c1_redirect_policy_denied envC1 uRootW uPageA 10 0 true 10 privRedirResp rfl
    (Or.inr (by decide))

/-- C2 counterexample: a 200 HTML response of two chunks totalling
6000000 bytes exceeds the 4 MiB cap, yet `fetch_text` returns status 200
with the truncated buffered prefix `"PART1"` as a non-null body (the
buffer is not discarded), and `crawl_site` keeps the page as a normal
PageRecord with zero fetch errors — not a Failed outcome. -/
theorem c2_truncated_body_cex :
    MAX_BYTES < (bigResp.chunks.map Bytes.size).sum ∧
    fetch_text envC2 uRootW = ⟨200, some "PART1", Diag.ok uRootW 200 true⟩ ∧
    (crawl_site envC2 uRootW 5 0 true 10).1.map Prod.fst = [uRootW] ∧
    (crawl_site envC2 uRootW 5 0 true 10).2.fetch_error = 0 := by
  refine ⟨?_, ?_, ?_, ?_⟩ <;> decide

/-- C2 amended: when the byte cap is exceeded, reading stops, but the
chunks buffered before the cap are not discarded — if at least one chunk
was buffered (and decodes to a nonempty string) `fetch_text` returns the
real status with the truncated prefix as the body, as if complete; the
kept chunks are a prefix of the stream.  Only when no chunk at all was
buffered (the first chunk alone exceeds the cap) is the body null. -/
theorem c2_cap_prefix_amended (env : Env) (url : Url) (r : Response)
    (hg : env.get url 0 = GetResult.ok r)
    (hp : policyViol env url r = false)
    (h200 : r.status = 200) (hct : isHtmlCt r.contentType = true)
    (hne : keptChunks 0 r.chunks ≠ [])
    (hdec : env.decode (keptChunks 0 r.chunks) ≠ "") :
    fetch_text env url =
      ⟨200, some (env.decode (keptChunks 0 r.chunks)), Diag.ok r.finalUrl 200 true⟩ ∧
    keptChunks 0 r.chunks <+: r.chunks := by
  have hemp : (keptChunks 0 r.chunks).isEmpty = false := by
    cases hk : keptChunks 0 r.chunks with
    | nil => exact absurd hk hne
    | cons a tl => rfl
  have hh : attemptHtml env r = some (env.decode (keptChunks 0 r.chunks)) := by
    simp [attemptHtml, h200, hct, hemp]
  have hs := attemptLoop_success env url 0 2 r (env.decode (keptChunks 0 r.chunks)) hg hp hh hdec
  rw [h200, hct] at hs
  exact ⟨hs, keptChunks_prefix r.chunks 0⟩

/-- C2 amended witness: the oversize two-chunk body yields the decoded
one-chunk prefix as the returned body. -/
theorem c2_cap_prefix_amended_w :
    fetch_text envC2 uRootW =
      ⟨200, some (envC2.decode (keptChunks 0 bigResp.chunks)), Diag.ok bigResp.finalUrl 200 true⟩ ∧
    keptChunks 0 bigResp.chunks <+: bigResp.chunks :=
  c2_cap_prefix_amended envC2 uRootW bigResp rfl (by decide) rfl (by decide)
    (by decide) (by decide)

/-- C3 counterexample: the host `unresolved.example.com` fails DNS
resolution (`getaddrinfo` raises), yet `normalize_url` returns the URL
instead of rejecting it — resolution failure is treated as safe, not as
reject. -/
theorem c3_resolution_failure_cex :
    baseEnv.resolve uUnres.host = none ∧
    normalize_url baseEnv uRootW (Href.abs uUnres) = some uUnres := by
  exact ⟨rfl, by decide⟩

/-- C3 amended: `normalize_url` returns null exactly when the href is
empty, the resolved scheme is neither http nor https, the registrable
domain of the resolved host differs from that of the base, or the host resolves to a
private/loopback/link-local/reserved/multicast address; a failed DNS
resolution makes the guard return false (fail open), so an unresolvable
host is accepted, not rejected; otherwise the resolved, fragment-stripped
URL is returned. -/
theorem c3_normalize_amended :
    (∀ env host, Env.resolve env host = none → is_private_ip env host = false) ∧
    (∀ env base href,
      normalize_url env base href = none ↔
        (hrefIsEmpty href = true ∨
          ¬((urldefrag (urljoin base href)).scheme = "http" ∨
            (urldefrag (urljoin base href)).scheme = "https") ∨
          etld1 env base.host ≠ etld1 env (urldefrag (urljoin base href)).host ∨
          is_private_ip env (urldefrag (urljoin base href)).host = true)) ∧
    (∀ env base href u, normalize_url env base href = some u →
      u = urldefrag (urljoin base href) ∧ u.fragment = none) := by
  refine ⟨?_, ?_, ?_⟩
  · intro env host hr
    simp [is_private_ip, hr]
  · intro env base href
    simp only [normalize_url]
    constructor
    · intro hn
      by_cases h0 : hrefIsEmpty href = true
      · exact Or.inl h0
      · rw [if_neg h0] at hn
        by_cases h1 : ¬((urldefrag (urljoin base href)).scheme = "http" ∨
            (urldefrag (urljoin base href)).scheme = "https")
        · exact Or.inr (Or.inl h1)
        · rw [if_neg h1] at hn
          by_cases h2 : etld1 env base.host ≠ etld1 env (urldefrag (urljoin base href)).host
          · exact Or.inr (Or.inr (Or.inl h2))
          · rw [if_neg h2] at hn
            by_cases h3 : is_private_ip env (urldefrag (urljoin base href)).host = true
            · exact Or.inr (Or.inr (Or.inr h3))
            · rw [if_neg h3] at hn
              exact Option.noConfusion hn
    · intro hd
      by_cases h0 : hrefIsEmpty href = true
      · rw [if_pos h0]
      · rw [if_neg h0]
        rcases hd with h0x | h1 | h2 | h3
        · exact absurd h0x h0
        · rw [if_pos h1]
        · by_cases h1 : ¬((urldefrag (urljoin base href)).scheme = "http" ∨
              (urldefrag (urljoin base href)).scheme = "https")
          · rw [if_pos h1]
          · rw [if_neg h1, if_pos h2]
        · by_cases h1 : ¬((urldefrag (urljoin base href)).scheme = "http" ∨
              (urldefrag (urljoin base href)).scheme = "https")
          · rw [if_pos h1]
          · rw [if_neg h1]
            by_cases h2 : etld1 env base.host ≠ etld1 env (urldefrag (urljoin base href)).host
            · rw [if_pos h2]
            · rw [if_neg h2, if_pos h3]
  · intro env base href u hs
    simp only [normalize_url] at hs
    by_cases h0 : hrefIsEmpty href = true
    · rw [if_pos h0] at hs; cases hs
    · rw [if_neg h0] at hs
      by_cases h1 : ¬((urldefrag (urljoin base href)).scheme = "http" ∨
          (urldefrag (urljoin base href)).scheme = "https")
      · rw [if_pos h1] at hs; cases hs
      · rw [if_neg h1] at hs
        by_cases h2 : etld1 env base.host ≠ etld1 env (urldefrag (urljoin base href)).host
        · rw [if_pos h2] at hs; cases hs
        · rw [if_neg h2] at hs
          by_cases h3 : is_private_ip env (urldefrag (urljoin base href)).host = true
          · rw [if_pos h3] at hs; cases hs
          · rw [if_neg h3] at hs
            injection hs with hu
            subst hu
            exact ⟨rfl, rfl⟩

/-- C3 amended witness: the guard reports the unresolvable host safe, and
a returned URL is the resolved, fragment-stripped one. -/
theorem c3_normalize_amended_w :
    is_private_ip baseEnv "unresolved.example.com" = false ∧
    (uPageA = urldefrag (urljoin uRootW (Href.rel "/a" none (some "frag"))) ∧
      uPageA.fragment = none) :=
  ⟨c3_normalize_amended.1 baseEnv "unresolved.example.com" rfl,
   c3_normalize_amended.2.2 baseEnv uRootW (Href.rel "/a" none (some "frag")) uPageA (by decide)⟩

/-- C4 counterexample: a transport exception on the first attempt is
terminal with status 0 even though the second attempt would return a good
HTML page (no retry on transport exceptions), while a successful non-HTML
JSON response on the first attempt is followed by a retry that returns
the HTML of the second attempt (successful non-HTML responses are retried, not
terminal) — both contradicting the claimed retry policy. -/
theorem c4_retry_cex :
    (fetch_text envC4a uRootW = ⟨0, none, Diag.exc "OSError"⟩ ∧
      envC4a.get uRootW 1 = GetResult.ok rootRespW) ∧
    (fetch_text envC4b uRootW = ⟨200, some "ROOTPAGE", Diag.ok uRootW 200 true⟩ ∧
      envC4b.get uRootW 0 = GetResult.ok jsonRespW) := by
  refine ⟨⟨?_, rfl⟩, ?_, rfl⟩ <;> decide

/-- C4 amended: `fetch_text` makes up to 3 attempts, retrying (with a
fixed backoff) exactly when a completed, policy-clean response yields no
truthy HTML body — which includes non-200 responses and successful
non-HTML responses; a transport exception at any attempt is immediately
terminal with status 0 (the exception handler wraps the whole retry
loop), and a policy denial is immediately terminal with status 451. -/
theorem c4_retry_amended :
    (∀ env url e, Env.get env url 0 = GetResult.exc e →
      fetch_text env url = ⟨0, none, Diag.exc e⟩) ∧
    (∀ env url r, Env.get env url 0 = GetResult.ok r → policyViol env url r = true →
      fetch_text env url = ⟨451, none, Diag.policy r.finalUrl⟩) ∧
    (∀ env url r0 r1 r2,
      Env.get env url 0 = GetResult.ok r0 → policyViol env url r0 = false →
        pyFalsyStr (attemptHtml env r0) = true →
      Env.get env url 1 = GetResult.ok r1 → policyViol env url r1 = false →
        pyFalsyStr (attemptHtml env r1) = true →
      Env.get env url 2 = GetResult.ok r2 → policyViol env url r2 = false →
        pyFalsyStr (attemptHtml env r2) = true →
      fetch_text env url = ⟨0, none, Diag.maxRetry⟩) ∧
    (∀ env url r0 r1 h,
      Env.get env url 0 = GetResult.ok r0 → policyViol env url r0 = false →
        pyFalsyStr (attemptHtml env r0) = true →
      Env.get env url 1 = GetResult.ok r1 → policyViol env url r1 = false →
        attemptHtml env r1 = some h → h ≠ "" →
      fetch_text env url =
        ⟨r1.status, some h, Diag.ok r1.finalUrl r1.status (isHtmlCt r1.contentType)⟩) := by
  refine ⟨?_, ?_, ?_, ?_⟩
  · intro env url e hg
    exact attemptLoop_exc env url 0 2 e hg
  · intro env url r hg hb
    exact attemptLoop_policy env url 0 2 r hg hb
  · intro env url r0 r1 r2 hg0 hp0 hh0 hg1 hp1 hh1 hg2 hp2 hh2
    have e1 : fetch_text env url = attemptLoop env url 1 2 :=
      attemptLoop_retry env url 0 2 r0 hg0 hp0 hh0
    have e2 : attemptLoop env url 1 2 = attemptLoop env url 2 1 :=
      attemptLoop_retry env url 1 1 r1 hg1 hp1 hh1
    have e3 : attemptLoop env url 2 1 = attemptLoop env url 3 0 :=
      attemptLoop_retry env url 2 0 r2 hg2 hp2 hh2
    exact e1.trans (e2.trans e3)
  · intro env url r0 r1 h hg0 hp0 hh0 hg1 hp1 hh1 hne
    have e1 : fetch_text env url = attemptLoop env url 1 2 :=
      attemptLoop_retry env url 0 2 r0 hg0 hp0 hh0
    exact e1.trans (attemptLoop_success env url 1 1 r1 h hg1 hp1 hh1 hne)

/-- C4 amended witness: the transport exception of the concrete world is
terminal after one attempt, and the non-HTML-then-HTML world returns the
page of the second attempt. -/
theorem c4_retry_amended_w :
    fetch_text envC4a uRootW = ⟨0, none, Diag.exc "OSError"⟩ ∧
    fetch_text envC4b uRootW =
      ⟨rootRespW.status, some "ROOTPAGE",
        Diag.ok rootRespW.finalUrl rootRespW.status (isHtmlCt rootRespW.contentType)⟩ :=
  ⟨c4_retry_amended.1 envC4a uRootW "OSError" rfl,
   c4_retry_amended.2.2.2 envC4b uRootW jsonRespW rootRespW "ROOTPAGE" rfl (by decide)
     (by decide) rfl (by decide) (by decide) (by decide)⟩

/-- C8 counterexample: a robots-denied URL is recorded in results only as
`{"status": 451, "url": url}` — with no reason code in the record and no
entry in `fail_samples` either, so a policy-denied outcome exists with no
machine-readable reason recorded anywhere. -/
theorem c8_denied_reason_cex :
    (crawlResults envC8 uRootW 5 10).results.map
        (fun uv => (uv.1, uv.2.status, uv.2.reason)) = [(uRootW, 451, none)] ∧
    (crawlResults envC8 uRootW 5 10).stats.robots_denied = 1 ∧
    (crawlResults envC8 uRootW 5 10).stats.fail_samples = [] := by
  refine ⟨?_, ?_, ?_⟩ <;> decide

/-- C8 amended: every results entry carries the URL it is keyed under and
an HTTP status — 451 when robots disallow the URL or the guard marks its
host unsafe, and the fetch status itself (0 for transport failures, 451
for redirect-policy denials) when the fetch did not return 200 — but the
outcome record carries no reason code (`reason` is never set); reason
strings appear only in the capped `fail_samples` diagnostics of fetch
errors. -/
theorem c8_outcome_records_amended (env : Env) (root : Url) (mp fuel : Nat) :
    ∀ uv ∈ (crawlResults env root mp fuel).results,
      uv.2.url = uv.1 ∧ uv.2.reason = none ∧
      (allowed env uv.1 = false → uv.2.status = 451) ∧
      (allowed env uv.1 = true → is_private_ip env uv.1.host = true → uv.2.status = 451) ∧
      (allowed env uv.1 = true → is_private_ip env uv.1.host = false →
        (fetch_text env uv.1).status ≠ 200 → uv.2.status = (fetch_text env uv.1).status) := by
  intro uv hm
  obtain ⟨a, b, _, d, e, f⟩ := crawlResults_rinv env root mp fuel uv hm
  exact ⟨a, b, d, e, f⟩

/-- C8 amended witness: applied to the robots-denied entry of the
concrete all-disallowed world. -/
theorem c8_outcome_records_amended_w :
    (deniedRecord uRootW).url = uRootW ∧ (deniedRecord uRootW).reason = none ∧
    (allowed envC8 uRootW = false → (deniedRecord uRootW).status = 451) ∧
    (allowed envC8 uRootW = true → is_private_ip envC8 uRootW.host = true →
      (deniedRecord uRootW).status = 451) ∧
    (allowed envC8 uRootW = true → is_private_ip envC8 uRootW.host = false →
      (fetch_text envC8 uRootW).status ≠ 200 →
      (deniedRecord uRootW).status = (fetch_text envC8 uRootW).status) :=
  c8_outcome_records_amended envC8 uRootW 5 10 (uRootW, deniedRecord uRootW) (by decide)

end Crawler
